import Mathlib

/-!
Shallow embedding of the presigned-tx middleware (TypeScript sources:
`src/cosmos-client.ts` and `src/index.ts`).

The wire codec, decoder registry, broadcast pipeline and generic query
dispatcher are translated into executable Lean definitions; network calls
are modelled as explicit oracle functions passed in as parameters, and
JavaScript exceptions as `Except String`.
-/

/-! ## Wire codec -/

/-- Value of a single hex digit, as JavaScript's hex decoder accepts them
(`0-9`, `a-f`, `A-F`); `none` for any other character. -/
def hexDigitVal (c : Char) : Option Nat :=
  if ('0' ≤ c ∧ c ≤ '9') then Option.some (c.toNat - 48)
  else if ('a' ≤ c ∧ c ≤ 'f') then Option.some (c.toNat - 87)
  else if ('A' ≤ c ∧ c ≤ 'F') then Option.some (c.toNat - 55)
  else Option.none

/-- Node.js `Buffer.from(str, "hex")` semantics on a character list: decode
two hex digits at a time into one byte; stop (returning the bytes decoded so
far) at the first incomplete or invalid pair. It never throws. -/
def jsHexDecodeList : List Char → List Nat
  | c1 :: c2 :: rest =>
    match hexDigitVal c1, hexDigitVal c2 with
    | Option.some h, Option.some l => (16 * h + l) :: jsHexDecodeList rest
    | _, _ => []
  | _ => []

/-- Decoding `Buffer.from(s, "hex")` on a string. -/
def jsHexDecode (s : String) : List Nat := jsHexDecodeList s.data

/-- Model of `s.replace(/^0x/, "")` on a character list: remove a single leading
lowercase `0x`; case-sensitive, anchored at the start. -/
def strip0xList (cs : List Char) : List Char :=
  match cs with
  | c1 :: c2 :: rest => if c1 = '0' ∧ c2 = 'x' then rest else c1 :: c2 :: rest
  | _ => cs

/-- The expression `signedTxHex.replace(/^0x/, "")` (src/cosmos-client.ts line 166). -/
def strip0x (s : String) : String := String.mk (strip0xList s.data)

/-- Lists of characters that decode completely: an even number of characters,
all valid hex digits, grouped in pairs. -/
inductive ValidPairs : List Char → Prop
  | nil : ValidPairs []
  | cons (c1 c2 : Char) (rest : List Char) :
      (hexDigitVal c1).isSome → (hexDigitVal c2).isSome →
      ValidPairs rest → ValidPairs (c1 :: c2 :: rest)

/-! ## Byte-map reconstruction (`decimalBytesToUint8Array`) -/

/-- JavaScript `Number(key)` on the decimal-string keys this code receives
("0", "1", ..., "10", ...): read the digits in base 10 (`Number("") = 0` in
JavaScript, matching the empty fold). -/
def jsNumberKey (s : String) : Nat :=
  s.data.foldl (fun n c => n * 10 + (c.toNat - 48)) 0

/-- Insert into an ascending list (model of one step of `.sort((a,b) => a-b)`). -/
def insertAsc (n : Nat) : List Nat → List Nat
  | [] => [n]
  | m :: ms => if n ≤ m then n :: m :: ms else m :: insertAsc n ms

/-- Ascending numeric sort, the behaviour of `.sort((a, b) => a - b)`. -/
def sortAsc : List Nat → List Nat
  | [] => []
  | n :: ns => insertAsc n (sortAsc ns)

/-- Function `decimalBytesToUint8Array` (src/cosmos-client.ts lines 45-51): take the
object's keys, convert each with `Number`, sort numerically ascending, then
read the byte stored under each key (property access converts the number back
to its decimal string; a missing key coerces to byte 0 in a `Uint8Array`). -/
def decimalBytesToUint8Array (decimalArray : List (String × Nat)) : List Nat :=
  let keys := sortAsc (decimalArray.map (fun p => jsNumberKey p.1))
  keys.map (fun k => (List.lookup (toString k) decimalArray).getD 0)

/-! ## Message decoder registry (`decodeProtobufMessage`) -/

/-- The registry maps a typeUrl to a decoder; a decoder that throws is
modelled as returning `Except.error` with the error message. -/
def MessageRegistry (V : Type) : Type := List (String × (List Nat → Except String V))

/-- Result of decoding one protobuf message: either a decoded value, or the
structured placeholder object `\x7berror, rawBytes\x7d` the code builds when the
typeUrl is unknown or the decoder throws. -/
inductive DecodeOutcome (V : Type) where
  | ok (v : V)
  | placeholder (error : String) (rawBytes : List Nat)
deriving DecidableEq

/-- Function `decodeProtobufMessage` (src/cosmos-client.ts lines 61-85): look the
typeUrl up in the registry; on a miss return the unknown-type placeholder with
the raw bytes; if the registered decoder throws, catch and return the
failed-to-decode placeholder; otherwise return the decoded value. -/
def decodeProtobufMessage {V : Type} (typeUrl : String) (messageBytes : List Nat)
    (messageRegistry : MessageRegistry V) : DecodeOutcome V :=
  match List.lookup typeUrl messageRegistry with
  | Option.none =>
    DecodeOutcome.placeholder ("Unknown message type: " ++ typeUrl) messageBytes
  | Option.some decoder =>
    match decoder messageBytes with
    | Except.ok v => DecodeOutcome.ok v
    | Except.error msg =>
      DecodeOutcome.placeholder ("Failed to decode: " ++ msg) messageBytes

/-! ## Broadcast pipeline (`broadcastSignedTx`) -/

/-- One entry of the node's `msgResponses` array: a typeUrl and the binary
payload represented as a decimal-string-keyed byte map. -/
structure MsgResponse where
  typeUrl : String
  value : List (String × Nat)
deriving DecidableEq

/-- The node's broadcast response, with the three possible hash field names
kept separate (`Option.none` models an absent field). -/
structure NodeResult where
  code : Nat
  rawLog : String
  transactionHash : Option String
  txhash : Option String
  hash : Option String
  msgResponses : Option (List MsgResponse)
deriving DecidableEq

/-- One decoded entry of `msgResponses`. -/
structure DecodedMessage (V : Type) where
  typeUrl : String
  decodedValue : DecodeOutcome V
deriving DecidableEq

/-- Interface `BroadcastResult` (src/cosmos-client.ts lines 23-35). The success path
always sets `txHash` (possibly `""`) and `responses`; `decodedMessages` is
present exactly when a registry was supplied. -/
structure BroadcastResult (V : Type) where
  success : Bool
  txHash : String
  decodedMessages : Option (List (DecodedMessage V))
  responses : Option NodeResult
deriving DecidableEq

/-- Function `extractAndDecodeMessages` (src/cosmos-client.ts lines 100-138): when
`msgResponses` is absent (or not an array) return the empty list; otherwise
rebuild each entry's bytes and decode it, keeping the node's order. -/
def extractAndDecodeMessages {V : Type} (result : NodeResult)
    (messageRegistry : MessageRegistry V) : List (DecodedMessage V) :=
  match result.msgResponses with
  | Option.none => []
  | Option.some msgs =>
    msgs.map (fun m =>
      { typeUrl := m.typeUrl
        decodedValue :=
          decodeProtobufMessage m.typeUrl (decimalBytesToUint8Array m.value)
            messageRegistry })

/-- Normalization `err.message || "Broadcast failed"`: an empty message is replaced by the
generic one. -/
def normalizeErr (m : String) : String := if m = "" then "Broadcast failed" else m

/-- Extraction of the transaction hash (src/cosmos-client.ts lines 184-188):
`transactionHash ?? txhash ?? hash ?? ""` — first non-missing field wins,
default empty string. -/
def extractTxHash (r : NodeResult) : String :=
  match r.transactionHash with
  | Option.some h => h
  | Option.none =>
    match r.txhash with
    | Option.some h => h
    | Option.none =>
      match r.hash with
      | Option.some h => h
      | Option.none => ""

/-- Body of the `try` block of `broadcastSignedTx` (src/cosmos-client.ts
lines 160-201). The network round trip (StargateClient.connect plus
broadcastTx) is the oracle `net`, taking the decoded transaction bytes and
either throwing (`Except.error`) or returning the node's result. -/
def broadcastCore {V : Type} (signedTxHex : String)
    (net : List Nat → Except String NodeResult)
    (messageRegistry : Option (MessageRegistry V)) :
    Except String (BroadcastResult V) :=
  if signedTxHex = "" then Except.error "signedTxHex is required"
  else
    match net (jsHexDecode (strip0x signedTxHex)) with
    | Except.error e => Except.error e
    | Except.ok result =>
      if result.code ≠ 0 then
        Except.error
          ("Broadcast failed (code " ++ toString result.code ++ "): " ++ result.rawLog)
      else
        Except.ok
          { success := true
            txHash := extractTxHash result
            decodedMessages :=
              Option.map (fun reg => extractAndDecodeMessages result reg) messageRegistry
            responses := Option.some result }

/-- Function `broadcastSignedTx` (src/cosmos-client.ts lines 155-205): the `try` body
wrapped in the `catch` that rethrows `new Error(err.message || "Broadcast
failed")`. -/
def broadcastSignedTx {V : Type} (signedTxHex : String)
    (net : List Nat → Except String NodeResult)
    (messageRegistry : Option (MessageRegistry V)) :
    Except String (BroadcastResult V) :=
  match broadcastCore signedTxHex net messageRegistry with
  | Except.error m => Except.error (normalizeErr m)
  | Except.ok r => Except.ok r

/-- A node result used as concrete data in examples: code 0, no hash fields,
no message responses. -/
def sampleNodeResult : NodeResult :=
  { code := 0, rawLog := "", transactionHash := Option.none,
    txhash := Option.none, hash := Option.none, msgResponses := Option.none }

/-! ## Generic query dispatcher (`queryAny`, src/index.ts lines 102-144) -/

/-- One own member of the query-service object: either a callable method
(an RPC call that returns a response or throws) or some non-callable value. -/
inductive ServiceMember (α ρ ε : Type) where
  | fn (f : α → Except ε ρ)
  | other

/-- Check `typeof member === "function"`. -/
def ServiceMember.isFn {α ρ ε : Type} : ServiceMember α ρ ε → Bool
  | ServiceMember.fn _ => true
  | ServiceMember.other => false

/-- The service object produced by `getQueryService`: its named own members. -/
structure QueryService (α ρ ε : Type) where
  members : List (String × ServiceMember α ρ ε)

/-- Enumeration `Object.keys(service).filter(k => typeof service[k] === "function")`
(src/index.ts lines 117-119). -/
def availableMethods {α ρ ε : Type} (s : QueryService α ρ ε) : List String :=
  (s.members.filter (fun p => ServiceMember.isFn p.2)).map Prod.fst

/-- Lookup `service[methodName]` followed by the `typeof fn === "function"` check
(src/index.ts lines 112-115): `some f` exactly when the member exists and is
callable. -/
def lookupMethod {α ρ ε : Type} (s : QueryService α ρ ε) (methodName : String) :
    Option (α → Except ε ρ) :=
  match List.lookup methodName s.members with
  | Option.some (ServiceMember.fn f) => Option.some f
  | _ => Option.none

/-- Observable events of one `queryAny` run: an RPC invocation on a candidate
request, and the connection release `close()`. -/
inductive QEvent (α : Type) where
  | call (req : α)
  | close
deriving DecidableEq

/-- Discriminator for `QEvent.close`, used for counting release events. -/
def isClose {α : Type} : QEvent α → Bool
  | QEvent.close => true
  | QEvent.call _ => false

/-- The failures `queryAny` itself can raise inside the `try` block. -/
inductive QFail (ε : Type) where
  | methodNotFound (methodName : String) (available : List String)
  | candidateError (e : ε)
  | allCandidatesFailed
deriving DecidableEq

/-- The message carried by each failure, as the code formats it
(src/index.ts lines 120-122 and 139). -/
def qfailMessage : QFail String → String
  | QFail.methodNotFound m avail =>
    "Method \x27" ++ m ++ "\x27 not found. Available: " ++ String.intercalate ", " avail
  | QFail.candidateError e => e
  | QFail.allCandidatesFailed => "All request candidates failed."

/-- The candidate loop (src/index.ts lines 127-139): try each request in
order, return on the first success; on failure remember the error
(`lastError`) and continue; after the loop throw `lastError` or, when no
candidate was ever tried, the generic error. Also records the trace of
invocations. -/
def tryCandidates {α ρ ε : Type} (fn : α → Except ε ρ) :
    List α → Option ε → Except (QFail ε) ρ × List (QEvent α)
  | [], Option.none => (Except.error QFail.allCandidatesFailed, [])
  | [], Option.some e => (Except.error (QFail.candidateError e), [])
  | req :: rest, _ =>
    match fn req with
    | Except.ok r => (Except.ok r, [QEvent.call req])
    | Except.error e =>
      let res := tryCandidates fn rest (Option.some e)
      (res.1, QEvent.call req :: res.2)

/-- The `try` block of `queryAny` (src/index.ts lines 110-139): method lookup
with the enumerating error, then the candidate loop. -/
def queryAnyBody {α ρ ε : Type} (service : QueryService α ρ ε)
    (methodName : String) (reqCandidates : List α) :
    Except (QFail ε) ρ × List (QEvent α) :=
  match lookupMethod service methodName with
  | Option.none =>
    (Except.error (QFail.methodNotFound methodName (availableMethods service)), [])
  | Option.some fn => tryCandidates fn reqCandidates Option.none

/-- Overall outcome of a `queryAny` call. -/
inductive QueryOutcome (ε₀ ε ρ : Type) where
  | connectFailed (e : ε₀)
  | failed (f : QFail ε)
  | succeeded (r : ρ)
deriving DecidableEq

/-- Function `queryAny` (src/index.ts lines 102-144). `conn` is the outcome of
`getQueryService` (src/index.ts lines 68-85): either a connection error, or
the service object whose release function is the traced `close` event. The
`finally` block appends exactly one `close` after the `try` body, on success
and failure alike; if the connection itself failed, the `try` block is never
entered and no `close` happens. -/
def queryAny {α ρ ε ε₀ : Type} (conn : Except ε₀ (QueryService α ρ ε))
    (methodName : String) (reqCandidates : List α) :
    QueryOutcome ε₀ ε ρ × List (QEvent α) :=
  match conn with
  | Except.error e => (QueryOutcome.connectFailed e, [])
  | Except.ok service =>
    let body := queryAnyBody service methodName reqCandidates
    ((match body.1 with
      | Except.ok r => QueryOutcome.succeeded r
      | Except.error f => QueryOutcome.failed f),
     body.2 ++ [QEvent.close])

/-! ## Concrete sample data for evaluating the definitions -/

/-- A sample RPC method: fails on request 0, succeeds on anything else. -/
def sampleFn (n : Nat) : Except String Nat :=
  if n = 0 then Except.error "boom" else Except.ok (n + 1)

/-- A sample service with one callable member and one non-callable member. -/
def sampleService : QueryService Nat Nat String :=
  { members := [("q", ServiceMember.fn sampleFn), ("x", ServiceMember.other)] }

/-- A sample decoder registry: "t" throws, "u" decodes to the byte count. -/
def sampleRegistry : MessageRegistry Nat :=
  [("t", fun _ => Except.error "bad"), ("u", fun bs => Except.ok bs.length)]

/-! ## Helper lemmas -/

/-- The trace of the candidate loop consists of `call` events only; the
`close` event comes only from the `finally` block. -/
theorem tryCandidates_trace_calls {α ρ ε : Type} (fn : α → Except ε ρ)
    (cands : List α) (last : Option ε) :
    ∃ pre : List α, (tryCandidates fn cands last).2 = pre.map QEvent.call := by
  induction cands generalizing last with
  | nil => cases last <;> exact ⟨[], rfl⟩
  | cons req rest ih =>
    cases h : fn req with
    | ok r => exact ⟨[req], by simp [tryCandidates, h]⟩
    | error e =>
      obtain ⟨pre, hpre⟩ := ih (Option.some e)
      exact ⟨req :: pre, by simp [tryCandidates, h, hpre]⟩

/-- The candidate loop never emits a `close` event. -/
theorem tryCandidates_no_close {α ρ ε : Type} (fn : α → Except ε ρ)
    (cands : List α) (last : Option ε) :
    ((tryCandidates fn cands last).2).countP (fun ev => isClose ev) = 0 := by
  obtain ⟨pre, hpre⟩ := tryCandidates_trace_calls fn cands last
  rw [hpre, List.countP_eq_zero]
  intro a ha
  obtain ⟨x, _, rfl⟩ := List.mem_map.mp ha
  simp [isClose]

/-- The candidate loop returns the first success, invoking exactly the
failing front of the list plus the first succeeding candidate, in order. -/
theorem tryCandidates_first_ok {α ρ ε : Type} (fn : α → Except ε ρ)
    (as : List α) (b : α) (bs : List α) (r : ρ) (last : Option ε)
    (hfail : ∀ a ∈ as, ∃ e, fn a = Except.error e)
    (hb : fn b = Except.ok r) :
    tryCandidates fn (as ++ b :: bs) last
      = (Except.ok r, (as ++ [b]).map QEvent.call) := by
  induction as generalizing last with
  | nil => simp [tryCandidates, hb]
  | cons a as ih =>
    obtain ⟨e, he⟩ := hfail a (List.mem_cons_self a as)
    have ih2 := ih (Option.some e) (fun x hx => hfail x (List.mem_cons_of_mem a hx))
    simp [tryCandidates, he, ih2]

/-- When every candidate fails, the loop invokes all of them in order and the
error thrown is the one produced by the last candidate. -/
theorem tryCandidates_all_err {α ρ ε : Type} (fn : α → Except ε ρ)
    (init : List α) (lastc : α) (e : ε) (last : Option ε)
    (hfail : ∀ a ∈ init, ∃ e2, fn a = Except.error e2)
    (hlast : fn lastc = Except.error e) :
    tryCandidates fn (init ++ [lastc]) last
      = (Except.error (QFail.candidateError e), (init ++ [lastc]).map QEvent.call) := by
  induction init generalizing last with
  | nil => simp [tryCandidates, hlast]
  | cons a as ih =>
    obtain ⟨e2, he2⟩ := hfail a (List.mem_cons_self a as)
    have ih2 := ih (Option.some e2) (fun x hx => hfail x (List.mem_cons_of_mem a hx))
    simp [tryCandidates, he2, ih2]

/-- A fully decodable block of hex pairs decodes compositionally: the decoder
consumes it entirely and continues into the remainder. -/
theorem jsHexDecodeList_append (cs t : List Char) (h : ValidPairs cs) :
    jsHexDecodeList (cs ++ t) = jsHexDecodeList cs ++ jsHexDecodeList t := by
  induction h with
  | nil => simp [jsHexDecodeList]
  | cons c1 c2 rest h1 h2 hrest ih =>
    obtain ⟨v1, hv1⟩ := Option.isSome_iff_exists.mp h1
    obtain ⟨v2, hv2⟩ := Option.isSome_iff_exists.mp h2
    simp [jsHexDecodeList, hv1, hv2, ih]

/-- A single trailing character (the odd leftover) decodes to nothing. -/
theorem jsHexDecodeList_single (c : Char) : jsHexDecodeList [c] = [] := rfl

/-- A non-hex character in the first slot of a pair stops decoding with no
further output. -/
theorem jsHexDecodeList_badFirst (c : Char) (t : List Char)
    (h : hexDigitVal c = Option.none) : jsHexDecodeList (c :: t) = [] := by
  cases t with
  | nil => rfl
  | cons c2 rest => simp [jsHexDecodeList, h]

/-- A non-hex character in the second slot of a pair stops decoding with no
further output. -/
theorem jsHexDecodeList_badSecond (c1 c2 : Char) (t : List Char)
    (h : hexDigitVal c2 = Option.none) : jsHexDecodeList (c1 :: c2 :: t) = [] := by
  cases h1 : hexDigitVal c1 <;> simp [jsHexDecodeList, h1, h]

/-- The normalized error message is never empty. -/
theorem normalizeErr_ne_empty (m : String) : normalizeErr m ≠ "" := by
  unfold normalizeErr
  split
  · decide
  · assumption

/-- Every error `broadcastSignedTx` raises stems from the empty-input check,
the network call throwing, or a nonzero result code: decoding itself never
raises. -/
theorem broadcastSignedTx_error_sources {V : Type} (s : String)
    (net : List Nat → Except String NodeResult) (reg : Option (MessageRegistry V))
    (e : String) (he : broadcastSignedTx s net reg = Except.error e) :
    s = "" ∨ (∃ e2, net (jsHexDecode (strip0x s)) = Except.error e2) ∨
      (∃ nr, net (jsHexDecode (strip0x s)) = Except.ok nr ∧ nr.code ≠ 0) := by
  unfold broadcastSignedTx at he
  cases hb : broadcastCore s net reg with
  | ok r => rw [hb] at he; exact Except.noConfusion he
  | error m =>
    unfold broadcastCore at hb
    by_cases hs : s = ""
    · exact Or.inl hs
    · rw [if_neg hs] at hb
      cases hnet : net (jsHexDecode (strip0x s)) with
      | error e2 => exact Or.inr (Or.inl ⟨e2, rfl⟩)
      | ok nr =>
        rw [hnet] at hb
        by_cases hc : nr.code = 0
        · simp [hc] at hb
        · exact Or.inr (Or.inr ⟨nr, rfl, hc⟩)

/-! ## Claim theorems -/

/-- C3: whenever the connection is opened successfully, `queryAny` emits the
connection release (`close`) exactly once — on the success path, the
method-not-found path, and the all-candidates-failed path alike — before it
returns or propagates an error. -/
theorem queryAny_close_exactly_once {α ρ ε ε₀ : Type}
    (conn : Except ε₀ (QueryService α ρ ε)) (s : QueryService α ρ ε)
    (methodName : String) (cands : List α)
    (h : conn = Except.ok s) :
    ((queryAny conn methodName cands).2).countP (fun ev => isClose ev) = 1 := by
  subst h
  have hbody : ((queryAnyBody s methodName cands).2).countP (fun ev => isClose ev) = 0 := by
    unfold queryAnyBody
    cases lookupMethod s methodName with
    | none => rfl
    | some fn => exact tryCandidates_no_close fn cands Option.none
  show ((queryAnyBody s methodName cands).2 ++ [QEvent.close]).countP
      (fun ev => isClose ev) = 1
  rw [List.countP_append, hbody]
  rfl

/-- C3 witness. -/
theorem queryAny_close_exactly_once_witness :
    ((queryAny (Except.ok sampleService : Except String (QueryService Nat Nat String))
        "q" [5]).2).countP (fun ev => isClose ev) = 1 :=
  queryAny_close_exactly_once (Except.ok sampleService) sampleService "q" [5] rfl

/-- C4: `queryAny` invokes the resolved method on the candidates strictly in
list order, returns the result of the first candidate that completes without
error, and never invokes any later candidate once one has succeeded. -/
theorem queryAny_first_success {α ρ ε ε₀ : Type}
    (s : QueryService α ρ ε) (methodName : String)
    (fn : α → Except ε ρ) (as : List α) (b : α) (bs : List α) (r : ρ)
    (hfn : lookupMethod s methodName = Option.some fn)
    (hfail : ∀ a ∈ as, ∃ e, fn a = Except.error e)
    (hb : fn b = Except.ok r) :
    (queryAny (Except.ok s : Except ε₀ (QueryService α ρ ε)) methodName
        (as ++ b :: bs)).1 = QueryOutcome.succeeded r ∧
    (queryAny (Except.ok s : Except ε₀ (QueryService α ρ ε)) methodName
        (as ++ b :: bs)).2 = (as ++ [b]).map QEvent.call ++ [QEvent.close] := by
  have hbody : queryAnyBody s methodName (as ++ b :: bs)
      = (Except.ok r, (as ++ [b]).map QEvent.call) := by
    unfold queryAnyBody
    rw [hfn]
    exact tryCandidates_first_ok fn as b bs r Option.none hfail hb
  constructor <;> simp [queryAny, hbody]

/-- C4 witness: candidate 0 fails, candidate 1 succeeds with result 2. -/
theorem queryAny_first_success_witness :
    (queryAny (Except.ok sampleService : Except String (QueryService Nat Nat String))
        "q" ([0] ++ 1 :: [])).1 = QueryOutcome.succeeded 2 ∧
    (queryAny (Except.ok sampleService : Except String (QueryService Nat Nat String))
        "q" ([0] ++ 1 :: [])).2 = ([0] ++ [1]).map QEvent.call ++ [QEvent.close] :=
  queryAny_first_success sampleService "q" sampleFn [0] 1 [] 2 rfl
    (by intro a ha
        have : a = 0 := by simpa using ha
        subst this
        exact ⟨"boom", rfl⟩)
    rfl

/-- C5: when every candidate fails, `queryAny` propagates the error raised by
the last candidate tried; on an empty candidate list it raises the generic
all-candidates-failed error instead. -/
theorem queryAny_lastError_or_generic {α ρ ε ε₀ : Type}
    (s : QueryService α ρ ε) (methodName : String)
    (fn : α → Except ε ρ) (init : List α) (lastc : α) (e : ε)
    (hfn : lookupMethod s methodName = Option.some fn)
    (hfail : ∀ a ∈ init, ∃ e2, fn a = Except.error e2)
    (hlast : fn lastc = Except.error e) :
    (queryAny (Except.ok s : Except ε₀ (QueryService α ρ ε)) methodName
        (init ++ [lastc])).1 = QueryOutcome.failed (QFail.candidateError e) ∧
    (queryAny (Except.ok s : Except ε₀ (QueryService α ρ ε)) methodName
        ([] : List α)).1 = QueryOutcome.failed QFail.allCandidatesFailed := by
  have hbody : queryAnyBody s methodName (init ++ [lastc])
      = (Except.error (QFail.candidateError e), (init ++ [lastc]).map QEvent.call) := by
    unfold queryAnyBody
    rw [hfn]
    exact tryCandidates_all_err fn init lastc e Option.none hfail hlast
  constructor
  · simp [queryAny, hbody]
  · simp [queryAny, queryAnyBody, hfn, tryCandidates]

/-- C5 witness: both candidates fail; the second error ("boom" from request
0 tried last) is the propagated one. -/
theorem queryAny_lastError_or_generic_witness :
    (queryAny (Except.ok sampleService : Except String (QueryService Nat Nat String))
        "q" ([0] ++ [0])).1 = QueryOutcome.failed (QFail.candidateError "boom") ∧
    (queryAny (Except.ok sampleService : Except String (QueryService Nat Nat String))
        "q" ([] : List Nat)).1 = QueryOutcome.failed QFail.allCandidatesFailed :=
  queryAny_lastError_or_generic sampleService "q" sampleFn [0] 0 "boom" rfl
    (by intro a ha
        have : a = 0 := by simpa using ha
        subst this
        exact ⟨"boom", rfl⟩)
    rfl

/-- C6: when the method name does not resolve to a callable member,
`queryAny` fails without invoking any candidate (the trace is just the
release), and the error carries the missing name together with exactly the
callable member names of the service, rendered into the message. -/
theorem queryAny_methodNotFound_enumerates {α ρ ε ε₀ : Type}
    (s : QueryService α ρ ε) (methodName : String) (cands : List α)
    (h : lookupMethod s methodName = Option.none) :
    (queryAny (Except.ok s : Except ε₀ (QueryService α ρ ε)) methodName cands).1
        = QueryOutcome.failed (QFail.methodNotFound methodName (availableMethods s)) ∧
    (queryAny (Except.ok s : Except ε₀ (QueryService α ρ ε)) methodName cands).2
        = [QEvent.close] ∧
    availableMethods s
        = (s.members.filter (fun p => ServiceMember.isFn p.2)).map Prod.fst ∧
    (∀ avail : List String, qfailMessage (QFail.methodNotFound methodName avail)
        = "Method \x27" ++ methodName ++ "\x27 not found. Available: "
            ++ String.intercalate ", " avail) := by
  refine ⟨?_, ?_, rfl, fun avail => rfl⟩ <;> simp [queryAny, queryAnyBody, h]

/-- C6 witness: unknown method "nope"; only "q" is callable ("x" is not). -/
theorem queryAny_methodNotFound_enumerates_witness :
    (queryAny (Except.ok sampleService : Except String (QueryService Nat Nat String))
        "nope" [7]).1
        = QueryOutcome.failed (QFail.methodNotFound "nope" (availableMethods sampleService)) ∧
    (queryAny (Except.ok sampleService : Except String (QueryService Nat Nat String))
        "nope" [7]).2 = [QEvent.close] ∧
    availableMethods sampleService
        = (sampleService.members.filter (fun p => ServiceMember.isFn p.2)).map Prod.fst ∧
    (∀ avail : List String, qfailMessage (QFail.methodNotFound "nope" avail)
        = "Method \x27" ++ "nope" ++ "\x27 not found. Available: "
            ++ String.intercalate ", " avail) :=
  queryAny_methodNotFound_enumerates sampleService "nope" [7] rfl

/-- C2: `decodeProtobufMessage` is total. On an unregistered typeUrl it
returns the unknown-type placeholder carrying the raw bytes; when the
registered decoder throws, the error is caught and converted to the same
placeholder shape with the decoder's message; otherwise it returns the
decoded value. In every case it returns — it never raises. -/
theorem decodeProtobufMessage_total_shape {V : Type} (typeUrl : String)
    (bytes : List Nat) (registry : MessageRegistry V) :
    (List.lookup typeUrl registry = Option.none →
      decodeProtobufMessage typeUrl bytes registry
        = DecodeOutcome.placeholder ("Unknown message type: " ++ typeUrl) bytes) ∧
    (∀ d msg, List.lookup typeUrl registry = Option.some d →
      d bytes = Except.error msg →
      decodeProtobufMessage typeUrl bytes registry
        = DecodeOutcome.placeholder ("Failed to decode: " ++ msg) bytes) ∧
    (∀ d v, List.lookup typeUrl registry = Option.some d →
      d bytes = Except.ok v →
      decodeProtobufMessage typeUrl bytes registry = DecodeOutcome.ok v) := by
  refine ⟨fun h => ?_, fun d msg hd hm => ?_, fun d v hd hv => ?_⟩ <;>
    simp [decodeProtobufMessage, *]

/-- C2 witness: an unregistered typeUrl (with empty byte sequence), a
registered decoder that throws, and a registered decoder that succeeds. -/
theorem decodeProtobufMessage_total_shape_witness :
    decodeProtobufMessage "z" [] sampleRegistry
      = DecodeOutcome.placeholder ("Unknown message type: " ++ "z") [] ∧
    decodeProtobufMessage "t" [9] sampleRegistry
      = DecodeOutcome.placeholder ("Failed to decode: " ++ "bad") [9] ∧
    decodeProtobufMessage "u" [9, 9] sampleRegistry = DecodeOutcome.ok 2 :=
  ⟨(decodeProtobufMessage_total_shape "z" [] sampleRegistry).1 rfl,
   (decodeProtobufMessage_total_shape "t" [9] sampleRegistry).2.1
      (fun _ => Except.error "bad") "bad" rfl rfl,
   (decodeProtobufMessage_total_shape "u" [9, 9] sampleRegistry).2.2
      (fun bs => Except.ok bs.length) 2 rfl rfl⟩

/-- C7: `decimalBytesToUint8Array` orders keys numerically, not lexically:
the 11-entry map with keys "0".."10" reconstructs to the byte sequence
1..11 of length 11 whose 11th element (index 10, the value under key "10")
equals 11. -/
theorem decimalBytesToUint8Array_numeric_order :
    decimalBytesToUint8Array
        [("0", 1), ("1", 2), ("2", 3), ("3", 4), ("4", 5), ("5", 6), ("6", 7),
         ("7", 8), ("8", 9), ("9", 10), ("10", 11)]
      = [1, 2, 3, 4, 5, 6, 7, 8, 9, 10, 11] ∧
    (decimalBytesToUint8Array
        [("0", 1), ("1", 2), ("2", 3), ("3", 4), ("4", 5), ("5", 6), ("6", 7),
         ("7", 8), ("8", 9), ("9", 10), ("10", 11)]).length = 11 ∧
    (decimalBytesToUint8Array
        [("0", 1), ("1", 2), ("2", 3), ("3", 4), ("4", 5), ("5", 6), ("6", 7),
         ("7", 8), ("8", 9), ("9", 10), ("10", 11)]).getLast? = Option.some 11 := by
  refine ⟨by decide, by decide, by decide⟩

/-- C8: on a successful broadcast the transaction identifier is
`transactionHash ?? txhash ?? hash ?? ""`: the three field names are
checked in that order, the first non-missing value wins, and when all three
are missing the call still succeeds with `txHash = ""` rather than raising. -/
theorem broadcastSignedTx_txHash_fallback {V : Type} (s : String)
    (net : List Nat → Except String NodeResult) (reg : Option (MessageRegistry V))
    (nr : NodeResult)
    (hs : s ≠ "") (hnet : net (jsHexDecode (strip0x s)) = Except.ok nr)
    (hcode : nr.code = 0) :
    broadcastSignedTx s net reg = Except.ok
      { success := true, txHash := extractTxHash nr,
        decodedMessages := Option.map (fun r2 => extractAndDecodeMessages nr r2) reg,
        responses := Option.some nr } ∧
    (∀ h1, nr.transactionHash = Option.some h1 → extractTxHash nr = h1) ∧
    (∀ h2, nr.transactionHash = Option.none → nr.txhash = Option.some h2 →
      extractTxHash nr = h2) ∧
    (∀ h3, nr.transactionHash = Option.none → nr.txhash = Option.none →
      nr.hash = Option.some h3 → extractTxHash nr = h3) ∧
    (nr.transactionHash = Option.none → nr.txhash = Option.none →
      nr.hash = Option.none → extractTxHash nr = "") := by
  refine ⟨?_, fun h1 e1 => ?_, fun h2 e1 e2 => ?_, fun h3 e1 e2 e3 => ?_,
    fun e1 e2 e3 => ?_⟩
  · unfold broadcastSignedTx broadcastCore
    rw [if_neg hs, hnet]
    simp [hcode]
  · simp [extractTxHash, e1]
  · simp [extractTxHash, e1, e2]
  · simp [extractTxHash, e1, e2, e3]
  · simp [extractTxHash, e1, e2, e3]

/-- C8 witness: a node result with all three hash fields missing — the call
succeeds and the hash defaults to the empty string. -/
theorem broadcastSignedTx_txHash_fallback_witness :
    broadcastSignedTx "ab" (fun _ => Except.ok sampleNodeResult)
        (Option.none : Option (MessageRegistry Nat)) = Except.ok
      { success := true, txHash := extractTxHash sampleNodeResult,
        decodedMessages := Option.none, responses := Option.some sampleNodeResult } ∧
    extractTxHash sampleNodeResult = "" :=
  ⟨(broadcastSignedTx_txHash_fallback "ab" (fun _ => Except.ok sampleNodeResult)
      (Option.none : Option (MessageRegistry Nat)) sampleNodeResult
      (by decide) rfl rfl).1,
   (broadcastSignedTx_txHash_fallback "ab" (fun _ => Except.ok sampleNodeResult)
      (Option.none : Option (MessageRegistry Nat)) sampleNodeResult
      (by decide) rfl rfl).2.2.2.2 rfl rfl rfl⟩

/-- C9: every `BroadcastResult` the pipeline actually returns is the fully
populated success value: `success = true` and `responses` holds the node's
response; failures surface only as raised errors, and every raised error
message is non-empty (human-readable, normalized by the catch block). -/
theorem broadcastSignedTx_success_invariant {V : Type} (s : String)
    (net : List Nat → Except String NodeResult) (reg : Option (MessageRegistry V)) :
    (∀ r, broadcastSignedTx s net reg = Except.ok r →
      r.success = true ∧ ∃ nr, net (jsHexDecode (strip0x s)) = Except.ok nr ∧
        nr.code = 0 ∧ r.responses = Option.some nr ∧
        r = { success := true, txHash := extractTxHash nr,
              decodedMessages := Option.map (fun r2 => extractAndDecodeMessages nr r2) reg,
              responses := Option.some nr }) ∧
    (∀ e, broadcastSignedTx s net reg = Except.error e → e ≠ "") := by
  constructor
  · intro r hr
    unfold broadcastSignedTx at hr
    cases hb : broadcastCore s net reg with
    | error m => rw [hb] at hr; exact Except.noConfusion hr
    | ok r2 =>
      rw [hb] at hr
      have hr2 : r2 = r := Except.ok.inj hr
      subst hr2
      unfold broadcastCore at hb
      by_cases hs : s = ""
      · rw [if_pos hs] at hb; exact Except.noConfusion hb
      · rw [if_neg hs] at hb
        cases hnet : net (jsHexDecode (strip0x s)) with
        | error e2 => rw [hnet] at hb; exact Except.noConfusion hb
        | ok nr =>
          rw [hnet] at hb
          by_cases hc : nr.code = 0
          · simp only [hc] at hb
            rw [if_neg (by simp)] at hb
            have hval := Except.ok.inj hb
            exact ⟨by rw [← hval], nr, rfl, hc, by rw [← hval], hval.symm⟩
          · simp [hc] at hb
  · intro e he
    unfold broadcastSignedTx at he
    cases hb : broadcastCore s net reg with
    | error m =>
      rw [hb] at he
      have : normalizeErr m = e := Except.error.inj he
      rw [← this]
      exact normalizeErr_ne_empty m
    | ok r => rw [hb] at he; exact Except.noConfusion he

/-- C9 witness: a successful run is fully populated, and the empty-input
failure carries a non-empty message. -/
theorem broadcastSignedTx_success_invariant_witness :
    ((broadcastSignedTx "ab" (fun _ => Except.ok sampleNodeResult)
        (Option.none : Option (MessageRegistry Nat))
      = Except.ok { success := true, txHash := "", decodedMessages := Option.none,
                    responses := Option.some sampleNodeResult }) →
      ({ success := true, txHash := "", decodedMessages := Option.none,
         responses := Option.some sampleNodeResult } : BroadcastResult Nat).success
        = true) ∧
    ("signedTxHex is required" ≠ "") :=
  ⟨fun h => ((broadcastSignedTx_success_invariant "ab"
      (fun _ => Except.ok sampleNodeResult)
      (Option.none : Option (MessageRegistry Nat))).1 _ h).1,
   (broadcastSignedTx_success_invariant ""
      (fun _ => Except.ok sampleNodeResult)
      (Option.none : Option (MessageRegistry Nat))).2 "signedTxHex is required" rfl⟩

/-- C1 (counterexample): the odd-length input "abc" does NOT make
`broadcastSignedTx` fail at decoding; `Buffer.from("abc", "hex")` silently
truncates to the single byte 0xAB = 171, the truncated bytes are submitted,
and the call succeeds. -/
theorem broadcastSignedTx_oddHex_counterexample :
    "abc".length % 2 = 1 ∧
    jsHexDecode (strip0x "abc") = [171] ∧
    broadcastSignedTx "abc" (fun _ => Except.ok sampleNodeResult)
        (Option.none : Option (MessageRegistry Nat))
      = Except.ok { success := true, txHash := "", decodedMessages := Option.none,
                    responses := Option.some sampleNodeResult } := by
  refine ⟨by decide, by decide, rfl⟩

/-- C1 (amended): the hex decoding step never raises. The decoder consumes
any fully valid block of hex pairs and continues past it; a trailing odd
character, or anything from the first invalid pair onward, is silently
dropped, so the input is truncated to the longest decodable prefix. Every
error `broadcastSignedTx` raises stems from the empty-input check, the
network call, or a nonzero result code — never from decoding. -/
theorem broadcastSignedTx_hexDecode_truncates :
    (∀ cs t, ValidPairs cs →
      jsHexDecodeList (cs ++ t) = jsHexDecodeList cs ++ jsHexDecodeList t) ∧
    (∀ c : Char, jsHexDecodeList [c] = []) ∧
    (∀ (c : Char) t, hexDigitVal c = Option.none → jsHexDecodeList (c :: t) = []) ∧
    (∀ (c1 c2 : Char) t, hexDigitVal c2 = Option.none →
      jsHexDecodeList (c1 :: c2 :: t) = []) ∧
    (∀ (V : Type) (s : String) (net : List Nat → Except String NodeResult)
        (reg : Option (MessageRegistry V)) (e : String),
      broadcastSignedTx s net reg = Except.error e →
      s = "" ∨ (∃ e2, net (jsHexDecode (strip0x s)) = Except.error e2) ∨
        (∃ nr, net (jsHexDecode (strip0x s)) = Except.ok nr ∧ nr.code ≠ 0)) :=
  ⟨jsHexDecodeList_append, jsHexDecodeList_single, jsHexDecodeList_badFirst,
   jsHexDecodeList_badSecond,
   fun _ s net reg e he => broadcastSignedTx_error_sources s net reg e he⟩

/-- C1 (amended) witness: "ab" followed by the invalid tail "zc" decodes to
just [0xAB]; and a network refusal is one of the legitimate error sources. -/
theorem broadcastSignedTx_hexDecode_truncates_witness :
    jsHexDecodeList (['a', 'b'] ++ ['z', 'c'])
      = jsHexDecodeList ['a', 'b'] ++ jsHexDecodeList ['z', 'c'] ∧
    jsHexDecodeList ['z', 'c'] = [] ∧
    ("abzc" = "" ∨
      (∃ e2, (fun _ => (Except.error "node down" : Except String NodeResult))
          (jsHexDecode (strip0x "abzc")) = Except.error e2) ∨
      (∃ nr, (fun _ => (Except.error "node down" : Except String NodeResult))
          (jsHexDecode (strip0x "abzc")) = Except.ok nr ∧ nr.code ≠ 0)) :=
  ⟨broadcastSignedTx_hexDecode_truncates.1 ['a', 'b'] ['z', 'c']
      (ValidPairs.cons 'a' 'b' [] (by decide) (by decide) ValidPairs.nil),
   broadcastSignedTx_hexDecode_truncates.2.2.2.1 'a' 'z' ['c'] (by decide),
   broadcastSignedTx_hexDecode_truncates.2.2.2.2 Nat "abzc"
      (fun _ => Except.error "node down")
      (Option.none : Option (MessageRegistry Nat)) "node down" rfl⟩

/-- C10: the `0x`-stripping is case-sensitive: an input beginning with the
uppercase "0X" keeps its marker, the whole string (with "0X" intact) is fed
to hex decoding, which — since "X" is not a hex digit — produces no bytes at
all (not the intended ones), and no error is raised at the decoding step:
any error of the call comes from the network or a nonzero result code. -/
theorem strip0x_case_sensitive {V : Type} (s : String) (rest : List Char)
    (net : List Nat → Except String NodeResult) (reg : Option (MessageRegistry V))
    (hdata : s.data = '0' :: 'X' :: rest) :
    strip0x s = s ∧
    jsHexDecode (strip0x s) = [] ∧
    (∀ e, broadcastSignedTx s net reg = Except.error e →
      (∃ e2, net [] = Except.error e2) ∨
        (∃ nr, net [] = Except.ok nr ∧ nr.code ≠ 0)) := by
  obtain ⟨l⟩ := s
  have hl : l = '0' :: 'X' :: rest := hdata
  subst hl
  have hstrip : strip0xList ('0' :: 'X' :: rest) = '0' :: 'X' :: rest := by
    show (if ('0' = '0' ∧ 'X' = 'x') then rest else '0' :: 'X' :: rest)
        = '0' :: 'X' :: rest
    rw [if_neg]
    intro hcc
    exact absurd hcc.2 (by decide)
  have hdec : jsHexDecode (strip0x (String.mk ('0' :: 'X' :: rest))) = [] := by
    show jsHexDecodeList (strip0xList ('0' :: 'X' :: rest)) = []
    rw [hstrip]
    exact jsHexDecodeList_badSecond '0' 'X' rest (by decide)
  refine ⟨?_, hdec, ?_⟩
  · show String.mk (strip0xList ('0' :: 'X' :: rest)) = String.mk ('0' :: 'X' :: rest)
    rw [hstrip]
  · intro e he
    have hsrc := broadcastSignedTx_error_sources (String.mk ('0' :: 'X' :: rest))
      net reg e he
    rw [hdec] at hsrc
    rcases hsrc with hemp | hrest
    · exact absurd (congrArg String.data hemp) (by simp)
    · exact hrest

/-- C10 witness: "0X12" keeps its uppercase marker, decodes to no bytes, and
an unreachable node surfaces as a network error, not a decoding error. -/
theorem strip0x_case_sensitive_witness :
    strip0x (String.mk ('0' :: 'X' :: ['1', '2'])) = String.mk ('0' :: 'X' :: ['1', '2']) ∧
    jsHexDecode (strip0x (String.mk ('0' :: 'X' :: ['1', '2']))) = [] ∧
    ((∃ e2, (fun _ => (Except.error "node down" : Except String NodeResult)) ([] : List Nat)
        = Except.error e2) ∨
      (∃ nr, (fun _ => (Except.error "node down" : Except String NodeResult)) ([] : List Nat)
        = Except.ok nr ∧ nr.code ≠ 0)) :=
  ⟨(strip0x_case_sensitive (String.mk ('0' :: 'X' :: ['1', '2'])) ['1', '2']
      (fun _ => Except.error "node down")
      (Option.none : Option (MessageRegistry Nat)) rfl).1,
   (strip0x_case_sensitive (String.mk ('0' :: 'X' :: ['1', '2'])) ['1', '2']
      (fun _ => Except.error "node down")
      (Option.none : Option (MessageRegistry Nat)) rfl).2.1,
   (strip0x_case_sensitive (String.mk ('0' :: 'X' :: ['1', '2'])) ['1', '2']
      (fun _ => Except.error "node down")
      (Option.none : Option (MessageRegistry Nat)) rfl).2.2 "node down" rfl⟩
